import Mathlib

/-!
Shallow embedding of the DOCX-to-PDF batch conversion service
(`app/models.py`, `app/tasks.py`, `app/finalize_task.py`).

The database is modelled as explicit state (`DB`): a list of `Job` rows and a
list of `JobFile` rows, with the SQLAlchemy queries of the tasks rendered as
list operations.  The two Celery tasks become pure state transformers:

* `convert_file_task` (from `app/tasks.py`): the per-file worker.  The
  external world it probes — whether the input DOCX is on disk, how long
  LibreOffice runs, and what the subprocess reports — is an explicit
  environment `ConvEnv`.  Besides the new database state it returns whether
  `finalize_job_task.delay(...)` was reached (in the source that call sits
  inside the outer `try`, after the inner `try/except`, so an exception
  raised before the inner `try` skips it).

* `finalize_job_task` (from `app/finalize_task.py`): the finalizer.  Its
  environment `FinEnv` records whether `zipfile.ZipFile` raises while the
  archive is written and which converted PDFs exist on disk.  Besides the new
  database state it returns a `FinalizeOutcome` mirroring the source's three
  exits: job row missing ("Job not found"), early return while files are
  still pending ("Pending files"), and the full run that commits a terminal
  job status (with the archive entries actually written, if any).
-/

namespace DocxConv

/-- `FileStatus` enum of `app/models.py` (status of one `JobFile`). -/
inductive FileStatus where
  | PENDING
  | PROCESSING
  | COMPLETED
  | FAILED
deriving DecidableEq, Repr

/-- `JobStatus` enum of `app/models.py` (overall status of a `Job`). -/
inductive JobStatus where
  | PENDING
  | PROCESSING
  | COMPLETED
  | FAILED
  | PARTIAL_SUCCESS
deriving DecidableEq, Repr

/-- A file status is terminal when it is `COMPLETED` or `FAILED`. -/
def FileStatus.isTerminal : FileStatus → Bool
  | .COMPLETED => true
  | .FAILED => true
  | _ => false

/-- A job status is terminal when it is `COMPLETED`, `FAILED` or
`PARTIAL_SUCCESS`. -/
def JobStatus.isTerminal : JobStatus → Bool
  | .COMPLETED => true
  | .FAILED => true
  | .PARTIAL_SUCCESS => true
  | _ => false

/-- Row of the `jobs` table (`Job` in `app/models.py`): `id`, `status`,
`created_at`. -/
structure Job where
  id : Nat
  status : JobStatus
  created_at : Nat
deriving DecidableEq, Repr

/-- Row of the `job_files` table (`JobFile` in `app/models.py`): `id`,
`job_id`, `filename`, `status` and the nullable `error_message`. -/
structure JobFile where
  id : Nat
  job_id : Nat
  filename : String
  status : FileStatus
  error_message : Option String
deriving DecidableEq, Repr

/-- The persisted state: the two tables. -/
structure DB where
  jobs : List Job
  files : List JobFile
deriving DecidableEq, Repr

/-- `db.query(Job).filter(Job.id == job_id).first()`. -/
def DB.findJob (db : DB) (jobId : Nat) : Option Job :=
  db.jobs.find? (fun j => j.id == jobId)

/-- `db.query(JobFile).filter(JobFile.id == file_id).first()`. -/
def DB.findFile (db : DB) (fileId : Nat) : Option JobFile :=
  db.files.find? (fun f => f.id == fileId)

/-- `db.query(JobFile).filter(JobFile.job_id == job_id)` — also the value of
the ORM relationship `job.files`. -/
def DB.jobFiles (db : DB) (jobId : Nat) : List JobFile :=
  db.files.filter (fun f => f.job_id == jobId)

/-- Assigning `job.status = s` to the row with the given id and committing. -/
def DB.setJobStatus (db : DB) (jobId : Nat) (s : JobStatus) : DB :=
  { db with jobs := db.jobs.map (fun j => if j.id == jobId then { j with status := s } else j) }

/-- Assigning fields of the `JobFile` row with the given id and committing. -/
def DB.updateFile (db : DB) (fileId : Nat) (upd : JobFile → JobFile) : DB :=
  { db with files := db.files.map (fun f => if f.id == fileId then upd f else f) }

/-- The status of the job row with the given id, when present. -/
def DB.jobStatus? (db : DB) (jobId : Nat) : Option JobStatus :=
  (db.findJob jobId).map (fun j => j.status)

/-- `finalize_task.py` lines 59–62: count of the job's files still in
`{PENDING, PROCESSING}`. -/
def DB.pendingCount (db : DB) (jobId : Nat) : Nat :=
  (db.jobFiles jobId).countP
    (fun f => f.status == FileStatus.PENDING || f.status == FileStatus.PROCESSING)

/-- `finalize_task.py` lines 71–74: count of the job's `FAILED` files. -/
def DB.failedCount (db : DB) (jobId : Nat) : Nat :=
  (db.jobFiles jobId).countP (fun f => f.status == FileStatus.FAILED)

/-- `finalize_task.py` lines 96–99: the job's `COMPLETED` files. -/
def DB.completedFiles (db : DB) (jobId : Nat) : List JobFile :=
  (db.jobFiles jobId).filter (fun f => f.status == FileStatus.COMPLETED)

/-- `finalize_task.py` lines 79–87: the aggregate job status from the failed
and total file counts. -/
def aggregateStatus (failedCount totalCount : Nat) : JobStatus :=
  if failedCount = totalCount ∧ 0 < totalCount then JobStatus.FAILED
  else if 0 < failedCount then JobStatus.PARTIAL_SUCCESS
  else JobStatus.COMPLETED

/-- `os.path.splitext(name)[0]`: everything before the last dot, except that a
name whose part before that dot is all dots (or that has no dot) is returned
whole. -/
def splitextBase (s : String) : String :=
  let cs := s.toList
  let extRev := cs.reverse.takeWhile (fun c => c ≠ '.')
  if extRev.length = cs.length then s
  else
    let baseLen := cs.length - extRev.length - 1
    if (cs.take baseLen).all (fun c => c = '.') then s
    else String.mk (cs.take baseLen)

/-- Environment of one `finalize_job_task` run: whether the
`zipfile.ZipFile(...)` block raises, and which PDFs exist on disk
(`os.path.exists(pdf_path)` at line 113). -/
structure FinEnv where
  zipFails : Bool
  pdfExists : String → Bool

/-- `finalize_task.py` lines 104–114: the archive entries — for every
`COMPLETED` file its `{base}.pdf` name, skipping PDFs missing on disk. -/
def bundleEntries (env : FinEnv) (jobId : Nat) (db : DB) : List String :=
  (db.completedFiles jobId).filterMap
    (fun f =>
      let pdfName := splitextBase f.filename ++ ".pdf"
      if env.pdfExists pdfName then some pdfName else none)

/-- How one `finalize_job_task` run ended, mirroring the source's returns:
`"Job not found"` (line 54), `"Pending files"` (line 68), or the committed
run with the new job status and the archive entries written (`none` when no
archive was produced: no `COMPLETED` file, all-failed job, or the zip block
raised). -/
inductive FinalizeOutcome where
  | jobNotFound
  | pendingRemain (count : Nat)
  | finalized (status : JobStatus) (bundle : Option (List String))
deriving DecidableEq, Repr

/-- `finalize_job_task` of `app/finalize_task.py` as a state transformer.
Lines 51–54: missing job row returns with no commit.  Lines 59–68: any file
still `PENDING`/`PROCESSING` returns with no commit.  Lines 71–87: compute
the aggregate status.  Lines 91–124: when it is `COMPLETED` or
`PARTIAL_SUCCESS` and at least one file is `COMPLETED`, write the archive;
an exception there is caught (line 120) and the status is still committed
(line 127). -/
def finalize_job_task (env : FinEnv) (jobId : Nat) (db : DB) : DB × FinalizeOutcome :=
  match db.findJob jobId with
  | none => (db, FinalizeOutcome.jobNotFound)
  | some _ =>
    let pending := db.pendingCount jobId
    if 0 < pending then (db, FinalizeOutcome.pendingRemain pending)
    else
      let failed := db.failedCount jobId
      let total := (db.jobFiles jobId).length
      let newStatus := aggregateStatus failed total
      let bundle :=
        if (newStatus = JobStatus.COMPLETED ∨ newStatus = JobStatus.PARTIAL_SUCCESS)
            ∧ db.completedFiles jobId ≠ [] ∧ env.zipFails = false then
          some (bundleEntries env jobId db)
        else none
      (db.setJobStatus jobId newStatus, FinalizeOutcome.finalized newStatus bundle)

/-- `tasks.py` line 103: `timeout=60` passed to `subprocess.run`. -/
def conversionTimeoutSeconds : Nat := 60

/-- What the LibreOffice subprocess reports when it finishes in time
(`tasks.py` lines 107–112): clean exit with the PDF present, a non-zero exit
code with its stderr, or a clean exit with the PDF missing. -/
inductive ConvResult where
  | success
  | exitError (stderr : String)
  | outputMissing
deriving DecidableEq, Repr

/-- Environment of one `convert_file_task` run: whether the input DOCX is on
disk (`os.path.exists(input_path)`, line 78), how many seconds the
subprocess runs (`subprocess.TimeoutExpired` is raised when it exceeds the
`timeout=60` bound), and what it reports if it finishes in time. -/
structure ConvEnv where
  inputExists : Bool
  duration : Nat
  result : ConvResult
deriving Repr

/-- `tasks.py` lines 57–65: the file is set `PROCESSING` and, if the owning
job is still `PENDING`, the job is set `PROCESSING`; both committed. -/
def markProcessing (db : DB) (fileId : Nat) (jid : Nat) : DB :=
  let db1 := db.updateFile fileId (fun f => { f with status := FileStatus.PROCESSING })
  match db1.findJob jid with
  | some j =>
    if j.status = JobStatus.PENDING
    then db1.setJobStatus jid JobStatus.PROCESSING
    else db1
  | none => db1

/-- `tasks.py` lines 93–132 (the inner `try/except`): how the file row is
rewritten once the bounded converter run ends.  A run past the 60-second
bound raises `subprocess.TimeoutExpired`; otherwise the subprocess result
decides between `COMPLETED` (line 115, `error_message` untouched) and
`FAILED` with the respective message (lines 127–131, 107–112). -/
def convertUpdate (env : ConvEnv) : JobFile → JobFile :=
  if conversionTimeoutSeconds < env.duration then
    fun f =>
      { f with status := FileStatus.FAILED,
               error_message := some "Conversion timeout (exceeded 60 seconds)" }
  else
    match env.result with
    | ConvResult.success => fun f => { f with status := FileStatus.COMPLETED }
    | ConvResult.exitError stderr =>
      fun f =>
        { f with status := FileStatus.FAILED,
                 error_message := some ("LibreOffice conversion failed: " ++ stderr) }
    | ConvResult.outputMissing =>
      fun f =>
        { f with status := FileStatus.FAILED,
                 error_message := some "Conversion failed: Output PDF not created" }

/-- `convert_file_task` of `app/tasks.py` as a state transformer, returning
the new database state and whether `finalize_job_task.delay` (line 138) was
reached.  Lines 52–55: missing row returns without finalizing.  Lines 57–65:
`markProcessing`, committed.  Lines 78–79: a missing input file raises
`FileNotFoundError` before the inner `try`, so it is caught only by the
outer handler (line 140) and the finalize trigger at line 138 is never
reached.  Lines 81–132: `convertUpdate`, committed.  Line 138: finalization
is enqueued after the inner `try/except`. -/
def convert_file_task (env : ConvEnv) (fileId : Nat) (db : DB) : DB × Bool :=
  match db.findFile fileId with
  | none => (db, false)
  | some fr =>
    let db1 := markProcessing db fileId fr.job_id
    if env.inputExists then
      (db1.updateFile fileId (convertUpdate env), true)
    else
      (db1, false)

/-! ### Basic lemmas about the state transformers -/

theorem files_setJobStatus (db : DB) (jobId : Nat) (s : JobStatus) :
    (db.setJobStatus jobId s).files = db.files := rfl

theorem jobFiles_setJobStatus (db : DB) (jobId jid : Nat) (s : JobStatus) :
    (db.setJobStatus jobId s).jobFiles jid = db.jobFiles jid := rfl

/-- `find?` through a map that rewrites exactly the rows the predicate
matches, when the rewrite keeps the predicate true. -/
theorem find?_map_if {α : Type} (q : α → Bool) (upd : α → α) (l : List α) (a : α)
    (h : l.find? q = some a) (hq : q (upd a) = true) :
    (l.map (fun x => if q x then upd x else x)).find? q = some (upd a) := by
  induction l with
  | nil => simp at h
  | cons b l ih =>
    simp only [List.map_cons]
    by_cases hb : q b = true
    · rw [List.find?_cons_of_pos _ hb] at h
      injection h with h
      subst h
      rw [if_pos hb]
      exact List.find?_cons_of_pos _ hq
    · rw [List.find?_cons_of_neg _ hb] at h
      rw [if_neg hb, List.find?_cons_of_neg _ hb]
      exact ih h

theorem findJob_setJobStatus_self (db : DB) (jobId : Nat) (s : JobStatus) (j : Job)
    (h : db.findJob jobId = some j) :
    (db.setJobStatus jobId s).findJob jobId = some { j with status := s } := by
  have h' : db.jobs.find? (fun x => x.id == jobId) = some j := h
  have hid : ((fun x : Job => x.id == jobId) j) = true :=
    @List.find?_some Job (fun x => x.id == jobId) j db.jobs h'
  exact find?_map_if (fun x => x.id == jobId) (fun x => { x with status := s }) db.jobs j h' hid

theorem findFile_updateFile_self (db : DB) (fileId : Nat) (upd : JobFile → JobFile)
    (fr : JobFile) (h : db.findFile fileId = some fr) (hid : (upd fr).id = fr.id) :
    (db.updateFile fileId upd).findFile fileId = some (upd fr) := by
  have h' : db.files.find? (fun x => x.id == fileId) = some fr := h
  have h1 : ((fun x : JobFile => x.id == fileId) fr) = true :=
    @List.find?_some JobFile (fun x => x.id == fileId) fr db.files h'
  have hq : ((fun x : JobFile => x.id == fileId) (upd fr)) = true := by
    show ((upd fr).id == fileId) = true
    rw [hid]
    exact h1
  exact find?_map_if (fun x => x.id == fileId) upd db.files fr h' hq

theorem findFile_setJobStatus (db : DB) (jobId : Nat) (s : JobStatus) (fileId : Nat) :
    (db.setJobStatus jobId s).findFile fileId = db.findFile fileId := rfl

theorem setJobStatus_setJobStatus (db : DB) (jobId : Nat) (s : JobStatus) :
    (db.setJobStatus jobId s).setJobStatus jobId s = db.setJobStatus jobId s := by
  unfold DB.setJobStatus
  simp only [List.map_map]
  congr 1
  apply List.map_congr_left
  intro x _
  by_cases hx : (x.id == jobId) = true
  · simp [Function.comp, hx]
  · simp [Function.comp, hx]

theorem pendingCount_eq_zero_iff (db : DB) (jobId : Nat) :
    db.pendingCount jobId = 0 ↔ ∀ f ∈ db.jobFiles jobId, f.status.isTerminal = true := by
  unfold DB.pendingCount
  rw [List.countP_eq_zero]
  constructor
  · intro h f hf
    have hf2 := h f hf
    cases hst : f.status <;> simp_all [FileStatus.isTerminal]
  · intro h f hf
    have hf2 := h f hf
    cases hst : f.status <;> simp_all [FileStatus.isTerminal]

theorem pendingCount_pos_iff (db : DB) (jobId : Nat) :
    0 < db.pendingCount jobId ↔
      ∃ f ∈ db.jobFiles jobId,
        f.status = FileStatus.PENDING ∨ f.status = FileStatus.PROCESSING := by
  unfold DB.pendingCount
  rw [List.countP_pos_iff]
  constructor
  · rintro ⟨f, hf, hp⟩
    exact ⟨f, hf, by simpa using hp⟩
  · rintro ⟨f, hf, hp⟩
    exact ⟨f, hf, by simpa using hp⟩

/-- A `finalize_job_task` run with a file still `PENDING`/`PROCESSING`
changes nothing and does not reach the finalized branch. -/
theorem finalize_noop_of_pending (env : FinEnv) (db : DB) (jobId : Nat)
    (hp : 0 < db.pendingCount jobId) :
    (finalize_job_task env jobId db).1 = db ∧
      ∀ s b, (finalize_job_task env jobId db).2 ≠ FinalizeOutcome.finalized s b := by
  have hout : finalize_job_task env jobId db = (db, FinalizeOutcome.jobNotFound)
      ∨ finalize_job_task env jobId db
          = (db, FinalizeOutcome.pendingRemain (db.pendingCount jobId)) := by
    unfold finalize_job_task
    cases hj : db.findJob jobId with
    | none => exact Or.inl rfl
    | some j =>
      right
      simp [hp]
  rcases hout with h | h <;> rw [h] <;>
    exact ⟨rfl, fun s b hh => FinalizeOutcome.noConfusion hh⟩

/-- A `finalize_job_task` run on a job whose files are all terminal: the
aggregate status is committed and the finalized outcome returned. -/
theorem finalize_run (env : FinEnv) (db : DB) (jobId : Nat) (j : Job)
    (hj : db.findJob jobId = some j)
    (hterm : ∀ f ∈ db.jobFiles jobId, f.status.isTerminal = true) :
    finalize_job_task env jobId db =
      (db.setJobStatus jobId (aggregateStatus (db.failedCount jobId) (db.jobFiles jobId).length),
        FinalizeOutcome.finalized
          (aggregateStatus (db.failedCount jobId) (db.jobFiles jobId).length)
          (if (aggregateStatus (db.failedCount jobId) (db.jobFiles jobId).length
                  = JobStatus.COMPLETED
                ∨ aggregateStatus (db.failedCount jobId) (db.jobFiles jobId).length
                  = JobStatus.PARTIAL_SUCCESS)
              ∧ db.completedFiles jobId ≠ [] ∧ env.zipFails = false then
            some (bundleEntries env jobId db)
          else none)) := by
  have hp : db.pendingCount jobId = 0 := (pendingCount_eq_zero_iff db jobId).2 hterm
  unfold finalize_job_task
  rw [hj]
  simp [hp]

theorem jobStatus?_setJobStatus_self (db : DB) (jobId : Nat) (s : JobStatus) (j : Job)
    (hj : db.findJob jobId = some j) :
    (db.setJobStatus jobId s).jobStatus? jobId = some s := by
  unfold DB.jobStatus?
  rw [findJob_setJobStatus_self db jobId s j hj]
  rfl

/-! ### Concrete states for witnesses and counterexamples -/

def jobA : Job := { id := 1, status := JobStatus.PROCESSING, created_at := 0 }

/-- A job with one `COMPLETED` and one `FAILED` file. -/
def dbMixed : DB :=
  { jobs := [jobA],
    files :=
      [ { id := 1, job_id := 1, filename := "a.docx", status := FileStatus.COMPLETED,
          error_message := none },
        { id := 2, job_id := 1, filename := "b.docx", status := FileStatus.FAILED,
          error_message := some "LibreOffice conversion failed: bad docx" } ] }

def filePending : JobFile :=
  { id := 3, job_id := 1, filename := "c.docx", status := FileStatus.PENDING,
    error_message := none }

/-- A job with one still-`PENDING` file. -/
def dbPending : DB := { jobs := [jobA], files := [filePending] }

/-- A finalized job whose single file already `COMPLETED`. -/
def dbDone : DB :=
  { jobs := [{ id := 1, status := JobStatus.COMPLETED, created_at := 0 }],
    files :=
      [ { id := 5, job_id := 1, filename := "d.docx", status := FileStatus.COMPLETED,
          error_message := none } ] }

/-- A job that owns no files at all. -/
def dbEmptyJob : DB :=
  { jobs := [{ id := 4, status := JobStatus.PENDING, created_at := 7 }], files := [] }

def envPlain : FinEnv := { zipFails := false, pdfExists := fun _ => true }

def envZipFail : FinEnv := { zipFails := true, pdfExists := fun _ => true }

/-! ### The claims -/

/-- C1: for a batch whose units are all terminal, with `n > 0` units of which
`k` are `FAILED`, finalization sets the batch status to `FAILED` if `k = n`,
to `PARTIAL_SUCCESS` if `0 < k < n`, and to `COMPLETED` if `k = 0`. -/
theorem finalize_aggregate_status (env : FinEnv) (db : DB) (jobId : Nat) (j : Job) (k n : Nat)
    (hj : db.findJob jobId = some j)
    (hterm : ∀ f ∈ db.jobFiles jobId, f.status.isTerminal = true)
    (hk : db.failedCount jobId = k)
    (hn : (db.jobFiles jobId).length = n)
    (hn0 : 0 < n) :
    (k = n →
      DB.jobStatus? (finalize_job_task env jobId db).1 jobId = some JobStatus.FAILED) ∧
    (0 < k → k < n →
      DB.jobStatus? (finalize_job_task env jobId db).1 jobId
        = some JobStatus.PARTIAL_SUCCESS) ∧
    (k = 0 →
      DB.jobStatus? (finalize_job_task env jobId db).1 jobId = some JobStatus.COMPLETED) := by
  have hrun := finalize_run env db jobId j hj hterm
  have hs : DB.jobStatus? (finalize_job_task env jobId db).1 jobId
      = some (aggregateStatus k n) := by
    rw [hrun]
    dsimp only
    rw [hk, hn]
    exact jobStatus?_setJobStatus_self db jobId _ j hj
  refine ⟨?_, ?_, ?_⟩
  · intro hkn
    rw [hs]
    unfold aggregateStatus
    rw [if_pos ⟨hkn, hn0⟩]
  · intro hk0 hkn
    rw [hs]
    unfold aggregateStatus
    have h1 : ¬(k = n ∧ 0 < n) := by rintro ⟨h1, _⟩; omega
    rw [if_neg h1, if_pos hk0]
  · intro hk0
    rw [hs]
    unfold aggregateStatus
    have h1 : ¬(k = n ∧ 0 < n) := by rintro ⟨h1, _⟩; omega
    have h2 : ¬(0 < k) := by omega
    rw [if_neg h1, if_neg h2]

theorem finalize_aggregate_status_witness :
    DB.jobStatus? (finalize_job_task envPlain 1 dbMixed).1 1
      = some JobStatus.PARTIAL_SUCCESS :=
  (finalize_aggregate_status envPlain dbMixed 1 jobA 1 2 (by decide) (by decide)
      (by decide) (by decide) (by decide)).2.1 (by decide) (by decide)

/-- C2: while some unit of the batch is `PENDING` or `PROCESSING`, any number
of finalize calls leaves the whole state unchanged and none of them reaches
the finalized branch; and whenever a finalize call does commit a status (the
finalized branch), every unit of the batch is terminal. -/
theorem finalize_no_premature (env : FinEnv) (db : DB) (jobId : Nat) :
    ((∃ f ∈ db.jobFiles jobId,
        f.status = FileStatus.PENDING ∨ f.status = FileStatus.PROCESSING) →
      (∀ n : Nat, (fun d => (finalize_job_task env jobId d).1)^[n] db = db) ∧
      ∀ s b, (finalize_job_task env jobId db).2 ≠ FinalizeOutcome.finalized s b) ∧
    (∀ s b, (finalize_job_task env jobId db).2 = FinalizeOutcome.finalized s b →
      ∀ f ∈ db.jobFiles jobId, f.status.isTerminal = true) := by
  constructor
  · intro hex
    have hp : 0 < db.pendingCount jobId := (pendingCount_pos_iff db jobId).2 hex
    have hnoop := finalize_noop_of_pending env db jobId hp
    exact ⟨fun n => Function.iterate_fixed hnoop.1 n, hnoop.2⟩
  · intro s b hfin
    by_cases hp : 0 < db.pendingCount jobId
    · exact absurd hfin ((finalize_noop_of_pending env db jobId hp).2 s b)
    · have h0 : db.pendingCount jobId = 0 := Nat.eq_zero_of_not_pos hp
      exact (pendingCount_eq_zero_iff db jobId).1 h0

theorem finalize_no_premature_witness :
    (fun d => (finalize_job_task envPlain 1 d).1)^[2] dbPending = dbPending :=
  ((finalize_no_premature envPlain dbPending 1).1
    ⟨filePending, by decide, Or.inl rfl⟩).1 2

/-- `markProcessing` only touches the file row's `status`, so looking the row
up afterwards yields it with `status = PROCESSING`. -/
theorem findFile_markProcessing (db : DB) (fileId jid : Nat) (fr : JobFile)
    (h : db.findFile fileId = some fr) :
    (markProcessing db fileId jid).findFile fileId
      = some { fr with status := FileStatus.PROCESSING } := by
  have h1 := findFile_updateFile_self db fileId
    (fun f => { f with status := FileStatus.PROCESSING }) fr h rfl
  unfold markProcessing
  dsimp only
  cases hj : (db.updateFile fileId
      (fun f => { f with status := FileStatus.PROCESSING })).findJob jid with
  | none => exact h1
  | some j =>
    dsimp only
    by_cases hs : j.status = JobStatus.PENDING
    · rw [if_pos hs]
      exact h1
    · rw [if_neg hs]
      exact h1

/-- C5: once a batch with all units terminal has been finalized, any number
of further finalize calls leaves the committed state fixed, and a repeated
call reaches the same outcome — the same terminal status and the same bundle
content. -/
theorem finalize_idempotent (env : FinEnv) (db : DB) (jobId : Nat) (j : Job)
    (hj : db.findJob jobId = some j)
    (hterm : ∀ f ∈ db.jobFiles jobId, f.status.isTerminal = true) :
    (∀ n : Nat,
      (fun d => (finalize_job_task env jobId d).1)^[n] (finalize_job_task env jobId db).1
        = (finalize_job_task env jobId db).1) ∧
    (finalize_job_task env jobId (finalize_job_task env jobId db).1).2
      = (finalize_job_task env jobId db).2 := by
  have hrun := finalize_run env db jobId j hj hterm
  have hj1 : (db.setJobStatus jobId (aggregateStatus (db.failedCount jobId)
        (db.jobFiles jobId).length)).findJob jobId
      = some { j with status := aggregateStatus (db.failedCount jobId) (db.jobFiles jobId).length } :=
    findJob_setJobStatus_self db jobId _ j hj
  have hterm1 : ∀ f ∈ (db.setJobStatus jobId (aggregateStatus (db.failedCount jobId)
        (db.jobFiles jobId).length)).jobFiles jobId, f.status.isTerminal = true := hterm
  have hrun1 := finalize_run env _ jobId _ hj1 hterm1
  have hfix : (fun d => (finalize_job_task env jobId d).1) (finalize_job_task env jobId db).1
      = (finalize_job_task env jobId db).1 := by
    show (finalize_job_task env jobId (finalize_job_task env jobId db).1).1
        = (finalize_job_task env jobId db).1
    rw [hrun]
    dsimp only
    rw [hrun1]
    dsimp only
    exact setJobStatus_setJobStatus db jobId _
  constructor
  · intro n
    exact Function.iterate_fixed hfix n
  · rw [hrun]
    dsimp only
    rw [hrun1]
    rfl

theorem finalize_idempotent_witness :
    (fun d => (finalize_job_task envPlain 1 d).1)^[3] (finalize_job_task envPlain 1 dbMixed).1
      = (finalize_job_task envPlain 1 dbMixed).1 :=
  (finalize_idempotent envPlain dbMixed 1 jobA (by decide) (by decide)).1 3

/-- `Forall₂` of a list against a pointwise rewrite of itself. -/
theorem forall₂_map_self {α : Type} (R : α → α → Prop) (f : α → α) (l : List α)
    (h : ∀ a ∈ l, R a (f a)) : List.Forall₂ R l (l.map f) := by
  induction l with
  | nil => exact List.Forall₂.nil
  | cons a l ih =>
    exact List.Forall₂.cons (h a (List.mem_cons_self a l))
      (ih fun x hx => h x (List.mem_cons_of_mem a hx))

/-- `Forall₂` of a list against itself, for a relation that is reflexive on
its members. -/
theorem forall₂_self {α : Type} (R : α → α → Prop) (l : List α)
    (h : ∀ a ∈ l, R a a) : List.Forall₂ R l l := by
  induction l with
  | nil => exact List.Forall₂.nil
  | cons a l ih =>
    exact List.Forall₂.cons (h a (List.mem_cons_self a l))
      (ih fun x hx => h x (List.mem_cons_of_mem a hx))

/-- C6: the finalized batch's `status` is the only piece of persisted entity
state a finalize run can mutate: the file rows are untouched, and row by row
every job with a different id is entirely unchanged, while the row with the
finalized id keeps its `id` and `created_at` — only its `status` can
differ. -/
theorem finalize_frame (env : FinEnv) (db : DB) (jobId : Nat) :
    (finalize_job_task env jobId db).1.files = db.files ∧
    List.Forall₂
      (fun a b : Job => b.id = a.id ∧ b.created_at = a.created_at ∧ (a.id ≠ jobId → b = a))
      db.jobs (finalize_job_task env jobId db).1.jobs := by
  have hself : List.Forall₂
      (fun a b : Job => b.id = a.id ∧ b.created_at = a.created_at ∧ (a.id ≠ jobId → b = a))
      db.jobs db.jobs :=
    forall₂_self _ db.jobs (fun a _ => ⟨rfl, rfl, fun _ => rfl⟩)
  have hset : ∀ s : JobStatus,
      List.Forall₂
        (fun a b : Job => b.id = a.id ∧ b.created_at = a.created_at ∧ (a.id ≠ jobId → b = a))
        db.jobs (db.setJobStatus jobId s).jobs := by
    intro s
    show List.Forall₂ _ db.jobs
      (db.jobs.map (fun j => if j.id == jobId then { j with status := s } else j))
    apply forall₂_map_self
    intro a _
    by_cases ha : (a.id == jobId) = true
    · rw [if_pos ha]
      exact ⟨rfl, rfl, fun hne => absurd (by simpa using ha) hne⟩
    · rw [if_neg ha]
      exact ⟨rfl, rfl, fun _ => rfl⟩
  have hcases : (finalize_job_task env jobId db).1 = db ∨
      ∃ s, (finalize_job_task env jobId db).1 = db.setJobStatus jobId s := by
    unfold finalize_job_task
    cases hj : db.findJob jobId with
    | none => exact Or.inl rfl
    | some j =>
      dsimp only
      by_cases hp : 0 < db.pendingCount jobId
      · rw [if_pos hp]
        exact Or.inl rfl
      · rw [if_neg hp]
        exact Or.inr ⟨_, rfl⟩
  rcases hcases with h | ⟨s, h⟩
  · rw [h]
    exact ⟨rfl, hself⟩
  · rw [h]
    exact ⟨rfl, hset s⟩

/-- C7: when the archive-building block raises (`zipFails = true`), the error
is caught inside finalization: the already-computed aggregate status — a
terminal one — is still committed, and the committed state is exactly the one
a run with a healthy archive step commits. -/
theorem finalize_bundle_error_commits (p : String → Bool) (db : DB) (jobId : Nat) (j : Job)
    (hj : db.findJob jobId = some j)
    (hterm : ∀ f ∈ db.jobFiles jobId, f.status.isTerminal = true) :
    DB.jobStatus? (finalize_job_task ⟨true, p⟩ jobId db).1 jobId
      = some (aggregateStatus (db.failedCount jobId) (db.jobFiles jobId).length) ∧
    (aggregateStatus (db.failedCount jobId) (db.jobFiles jobId).length).isTerminal = true ∧
    (finalize_job_task ⟨true, p⟩ jobId db).1 = (finalize_job_task ⟨false, p⟩ jobId db).1 := by
  have hrunT := finalize_run ⟨true, p⟩ db jobId j hj hterm
  have hrunF := finalize_run ⟨false, p⟩ db jobId j hj hterm
  refine ⟨?_, ?_, ?_⟩
  · rw [hrunT]
    dsimp only
    exact jobStatus?_setJobStatus_self db jobId _ j hj
  · unfold aggregateStatus
    by_cases h1 : db.failedCount jobId = (db.jobFiles jobId).length
        ∧ 0 < (db.jobFiles jobId).length
    · rw [if_pos h1]
      rfl
    · rw [if_neg h1]
      by_cases h2 : 0 < db.failedCount jobId
      · rw [if_pos h2]
        rfl
      · rw [if_neg h2]
        rfl
  · rw [hrunT, hrunF]

theorem finalize_bundle_error_commits_witness :
    DB.jobStatus? (finalize_job_task ⟨true, fun _ => true⟩ 1 dbMixed).1 1
      = some (aggregateStatus (dbMixed.failedCount 1) (dbMixed.jobFiles 1).length) :=
  (finalize_bundle_error_commits (fun _ => true) dbMixed 1 jobA (by decide) (by decide)).1

/-- C10: finalizing a batch that owns zero units sets the batch status to
`COMPLETED` (the `failed == total and total > 0` guard routes the empty case
to the all-succeeded branch) and builds no bundle. -/
theorem finalize_empty_batch (env : FinEnv) (db : DB) (jobId : Nat) (j : Job)
    (hj : db.findJob jobId = some j)
    (hempty : db.jobFiles jobId = []) :
    (finalize_job_task env jobId db).2
      = FinalizeOutcome.finalized JobStatus.COMPLETED none ∧
    DB.jobStatus? (finalize_job_task env jobId db).1 jobId = some JobStatus.COMPLETED := by
  have hterm : ∀ f ∈ db.jobFiles jobId, f.status.isTerminal = true := by
    rw [hempty]
    intro f hf
    cases hf
  have hrun := finalize_run env db jobId j hj hterm
  have hk : db.failedCount jobId = 0 := by
    unfold DB.failedCount
    rw [hempty]
    rfl
  have hn : (db.jobFiles jobId).length = 0 := by
    rw [hempty]
    rfl
  have hcf : db.completedFiles jobId = [] := by
    unfold DB.completedFiles
    rw [hempty]
    rfl
  have hagg : aggregateStatus 0 0 = JobStatus.COMPLETED := by decide
  constructor
  · rw [hrun]
    dsimp only
    rw [hk, hn, hagg, hcf]
    simp
  · rw [hrun]
    dsimp only
    rw [hk, hn, hagg]
    exact jobStatus?_setJobStatus_self db jobId _ j hj

theorem finalize_empty_batch_witness :
    (finalize_job_task envPlain 4 dbEmptyJob).2
      = FinalizeOutcome.finalized JobStatus.COMPLETED none :=
  (finalize_empty_batch envPlain dbEmptyJob 4
      { id := 4, status := JobStatus.PENDING, created_at := 7 } (by decide) (by decide)).1

/-- C3 is violated by the code: converting a unit whose input DOCX is missing
raises `FileNotFoundError` before the inner `try` of `convert_file_task`
(line 79), so the outer handler swallows it, the unit stays in the
non-terminal `PROCESSING` state, and the finalize trigger at line 138 is
never reached. -/
theorem convert_missing_input_stuck :
    ((convert_file_task ⟨false, 0, ConvResult.success⟩ 3 dbPending).2 = false) ∧
    (((convert_file_task ⟨false, 0, ConvResult.success⟩ 3 dbPending).1.findFile 3).map
        (fun f => f.status) = some FileStatus.PROCESSING) ∧
    (((convert_file_task ⟨false, 0, ConvResult.success⟩ 3 dbPending).1.findFile 3).map
        (fun f => f.status.isTerminal) = some false) := by
  decide

/-- C4 is violated by the code: `convert_file_task` has no terminal-state
guard, so a redelivered invocation on a `COMPLETED` unit re-converts it (here
a timeout flips it to `FAILED`), and with the input file gone it regresses
the unit to `PROCESSING` and skips the finalize call. -/
theorem convert_redelivery_not_guarded :
    (((convert_file_task ⟨true, 100, ConvResult.success⟩ 5 dbDone).1.findFile 5).map
        (fun f => f.status) = some FileStatus.FAILED) ∧
    (((convert_file_task ⟨false, 0, ConvResult.success⟩ 5 dbDone).1.findFile 5).map
        (fun f => f.status) = some FileStatus.PROCESSING) ∧
    ((convert_file_task ⟨false, 0, ConvResult.success⟩ 5 dbDone).2 = false) := by
  decide

/-- A job whose single file already failed once, with its error recorded. -/
def dbFailedOnce : DB :=
  { jobs := [jobA],
    files :=
      [ { id := 9, job_id := 1, filename := "e.docx", status := FileStatus.FAILED,
          error_message := some "LibreOffice conversion failed: bad file" } ] }

/-- C8 is violated by the code: a redelivered conversion of a previously
`FAILED` unit that now succeeds sets the unit `COMPLETED` (line 115) without
clearing `error_message`, so a unit whose status is not `FAILED` carries a
populated `error_detail`. -/
theorem error_message_kept_on_completed :
    (((convert_file_task ⟨true, 1, ConvResult.success⟩ 9 dbFailedOnce).1.findFile 9).map
        (fun f => f.status) = some FileStatus.COMPLETED) ∧
    (((convert_file_task ⟨true, 1, ConvResult.success⟩ 9 dbFailedOnce).1.findFile 9).bind
        (fun f => f.error_message) = some "LibreOffice conversion failed: bad file") := by
  decide

/-- C9 as written is false on the code: on timeout the stored error detail is
`"Conversion timeout (exceeded 60 seconds)"`, not `"conversion timeout"`. -/
theorem convert_timeout_message_counterexample :
    ((convert_file_task ⟨true, 100, ConvResult.success⟩ 3 dbPending).1.findFile 3).bind
        (fun f => f.error_message) ≠ some "conversion timeout" ∧
    ((convert_file_task ⟨true, 100, ConvResult.success⟩ 3 dbPending).1.findFile 3).map
        (fun f => f.status) = some FileStatus.FAILED := by
  decide

/-- C9 (amended): the converter subprocess is bounded by the 60-second
timeout `conversionTimeoutSeconds`; when the run exceeds the bound the unit
is marked `FAILED` with `error_message = "Conversion timeout (exceeded 60
seconds)"`, and the same invocation still proceeds to enqueue finalization —
no retry happens. -/
theorem convert_timeout_marks_failed (env : ConvEnv) (db : DB) (fileId : Nat) (fr : JobFile)
    (hf : db.findFile fileId = some fr)
    (hin : env.inputExists = true)
    (ht : conversionTimeoutSeconds < env.duration) :
    ((convert_file_task env fileId db).1.findFile fileId).map (fun f => f.status)
      = some FileStatus.FAILED ∧
    ((convert_file_task env fileId db).1.findFile fileId).bind (fun f => f.error_message)
      = some "Conversion timeout (exceeded 60 seconds)" ∧
    (convert_file_task env fileId db).2 = true := by
  have h1 := findFile_markProcessing db fileId fr.job_id fr hf
  have hupd : convertUpdate env = fun f =>
      { f with status := FileStatus.FAILED,
               error_message := some "Conversion timeout (exceeded 60 seconds)" } := by
    unfold convertUpdate
    rw [if_pos ht]
  have h2 := findFile_updateFile_self (markProcessing db fileId fr.job_id) fileId
    (convertUpdate env) { fr with status := FileStatus.PROCESSING } h1 (by rw [hupd])
  unfold convert_file_task
  rw [hf]
  dsimp only
  rw [hin, if_pos rfl]
  rw [h2, hupd]
  exact ⟨rfl, rfl, rfl⟩

theorem convert_timeout_marks_failed_witness :
    ((convert_file_task ⟨true, 100, ConvResult.success⟩ 3 dbPending).1.findFile 3).map
        (fun f => f.status) = some FileStatus.FAILED :=
  (convert_timeout_marks_failed ⟨true, 100, ConvResult.success⟩ dbPending 3 filePending
      (by decide) rfl (by decide)).1

end DocxConv
